import Mathlib

/-!
# Verification of the hamrlab-backtest core

Shallow embedding, over `ℚ`, of the backtest simulation and metrics engine of
the repository: the moving-average crossover signal loops, the position fold,
the three equity-curve loops, the performance metrics (`calc_metrics`,
`calc_core`), the run-level guards of the page scripts, and (modelled from the
spec, the routine being absent from the sources) the momentum ranker.

The repository contains five page variants of the same pipeline, which differ
in load-bearing details:
* `Home.py`, `pages/1_QQQLRS.py`, `pages/2_0050LRS.py` — no forced first-day
  signal, equity gated on `Position[t] = Position[t-1] = 1`;
* `pages/1_200SMA_basic.py` — forced `Signal[0] = 1`, equity gated on
  `Position[t-1] = 1` alone;
* `pages/2_LRS_leveraged.py` — forced `Signal[0] = 1`, equity gated on
  `Position[t] = 1` alone.
Dates are embedded as naturals, prices as rationals; a per-date series is a
function `ℕ → ℚ` on the positions of the date index (the loops are
index-driven), and run-level pipelines work on explicit row lists.
-/

namespace HamrLab

/-- One iteration of the crossover loop (`Home.py` lines 252-259, identically
`pages/1_QQQLRS.py` 231-240, `pages/2_0050LRS.py` 252-259,
`pages/1_200SMA_basic.py` 155-161, `pages/2_LRS_leveraged.py` 174-181):
`p`/`m` are price and moving average on day `t`, `p0`/`m0` on day `t-1`;
the emitted signal is `1` (buy), `-1` (sell) or `0`. -/
def signalAt (p m p0 m0 : ℚ) : Int :=
  if p > m ∧ p0 ≤ m0 then 1
  else if p < m ∧ p0 ≥ m0 then -1
  else 0

/-- The `Signal` column of `Home.py` (lines 251-259) and of
`pages/1_QQQLRS.py` / `pages/2_0050LRS.py`: initialized to `0`, the loop runs
over `i ∈ [1, len)`, so index `0` keeps `0`. -/
def Signal (pb ma : ℕ → ℚ) : ℕ → Int
  | 0 => 0
  | i + 1 => signalAt (pb (i + 1)) (ma (i + 1)) (pb i) (ma i)

/-- The `Signal` column of `pages/1_200SMA_basic.py` (line 154) and
`pages/2_LRS_leveraged.py` (line 172): same loop body, but index `0` is forced
to `1` (a forced first-day buy) before the loop runs. -/
def Signal_forced (pb ma : ℕ → ℚ) : ℕ → Int
  | 0 => 1
  | i + 1 => signalAt (pb (i + 1)) (ma (i + 1)) (pb i) (ma i)

/-- One step of the position fold
(`current_pos := (1 if s == 1 else 0 if s == -1 else current_pos)`,
`Home.py` lines 265-269; the explicit loop of `pages/1_200SMA_basic.py`
lines 164-171 and `pages/2_LRS_leveraged.py` lines 183-191 is the same
function). -/
def posStep (cur s : Int) : Int :=
  if s = 1 then 1 else if s = -1 then 0 else cur

/-- The `Position` column: the fold of `posStep` over the signal stream,
starting from the initial state `init` (`0` or `1`; `Home.py` line 265 picks
it from the UI policy, the two forced-signal pages hard-code `1`). The fold
consumes the signal at index `0` as well, exactly as the source comprehension
does. -/
def Position (sig : ℕ → Int) (init : Int) : ℕ → Int
  | 0 => posStep init (sig 0)
  | i + 1 => posStep (Position sig init i) (sig (i + 1))

/-- The strategy equity loop of `Home.py` (lines 275-281), identically
`pages/1_QQQLRS.py` 256-264 and `pages/2_0050LRS.py` 275-281: `E[0] = 1`, and
the day's leveraged-price ratio is credited only when
`Position[i] == 1 and Position[i-1] == 1`. -/
def Equity_LRS (pos : ℕ → Int) (plev : ℕ → ℚ) : ℕ → ℚ
  | 0 => 1
  | i + 1 =>
    if pos (i + 1) = 1 ∧ pos i = 1 then
      Equity_LRS pos plev i * (plev (i + 1) / plev i)
    else
      Equity_LRS pos plev i

/-- The strategy equity loop of `pages/2_LRS_leveraged.py` (lines 193-199):
the day's ratio is credited whenever `Position[i] == 1`, with no condition on
`Position[i-1]`. -/
def Equity_LRS_lev (pos : ℕ → Int) (plev : ℕ → ℚ) : ℕ → ℚ
  | 0 => 1
  | i + 1 =>
    if pos (i + 1) = 1 then
      Equity_LRS_lev pos plev i * (plev (i + 1) / plev i)
    else
      Equity_LRS_lev pos plev i

/-- `pct_change().fillna(0)` on an index-driven series (`Home.py` lines
244-245): the undefined change at index `0` is replaced by `0`. -/
def pct_ret (p : ℕ → ℚ) : ℕ → ℚ
  | 0 => 0
  | i + 1 => p (i + 1) / p i - 1

/-- `(1 + Return).cumprod()` (`Home.py` lines 286-287): the buy-and-hold
equity curve of a price series whose returns were computed inside the
analysis window. -/
def Equity_BH (p : ℕ → ℚ) : ℕ → ℚ
  | 0 => 1 + pct_ret p 0
  | i + 1 => Equity_BH p i * (1 + pct_ret p (i + 1))

end HamrLab

namespace HamrLab

/-- Concrete base-price stream for the C2 counterexample: price `10` on day 0
(equal to the moving average) and `11` afterwards. -/
def pbC2 : ℕ → ℚ := fun i => if i = 0 then 10 else 11

/-- Constant moving-average stream `10` for the C2 counterexample. -/
def maC2 : ℕ → ℚ := fun _ => 10

/-- Concrete signal stream for the C4 witness: a lone buy at index 1. -/
def sigC4 : ℕ → Int := fun i => if i = 1 then 1 else 0

end HamrLab

/-- C2 (counterexample): the claim adds that no Enter/Exit fires when price
equals the moving average on either day of the comparison pair, but the code
only requires strict inequality on day `t`: with `price[0] = avg[0] = 10`,
`price[1] = 11 > avg[1] = 10`, the loop emits Enter at `t = 1` even though
the price equals the average on day `t-1`. -/
theorem HamrLab.C2_equality_previous_day_fires :
    pbC2 0 = maC2 0 ∧ Signal pbC2 maC2 1 = 1 := by decide

/-- C2 (amended): for every date `t+1` after the first, the signal is Enter
exactly when `price[t+1] > avg[t+1]` and `price[t] ≤ avg[t]`, Exit exactly
when `price[t+1] < avg[t+1]` and `price[t] ≥ avg[t]`, and no signal fires on
a date where the price equals that date's moving average; equality on the
previous day alone does not suppress a signal. -/
theorem HamrLab.C2_signal_crossover (pb ma : ℕ → ℚ) (t : ℕ) :
    (Signal pb ma (t + 1) = 1 ↔ pb (t + 1) > ma (t + 1) ∧ pb t ≤ ma t) ∧
    (Signal pb ma (t + 1) = -1 ↔ pb (t + 1) < ma (t + 1) ∧ pb t ≥ ma t) ∧
    (pb (t + 1) = ma (t + 1) → Signal pb ma (t + 1) = 0) := by
  simp only [Signal, signalAt]
  split_ifs with h1 h2
  · exact ⟨iff_of_true rfl h1,
      iff_of_false (by decide) (fun hc => lt_asymm h1.1 hc.1),
      fun he => absurd h1.1 (by simp [he])⟩
  · exact ⟨iff_of_false (by decide) h1,
      iff_of_true rfl h2,
      fun he => absurd h2.1 (by simp [he])⟩
  · exact ⟨iff_of_false (by decide) h1, iff_of_false (by decide) h2, fun _ => rfl⟩

/-- C2 witness: on a constant series equal to its average, day 1 emits no
signal. -/
theorem HamrLab.C2_signal_crossover_witness :
    Signal (fun _ => (5 : ℚ)) (fun _ => (5 : ℚ)) 1 = 0 :=
  (HamrLab.C2_signal_crossover (fun _ => (5 : ℚ)) (fun _ => (5 : ℚ)) 0).2.2 rfl

/-- C3 (counterexample): the claim says the signal on date 0 is always None,
but `pages/1_200SMA_basic.py` line 154 and `pages/2_LRS_leveraged.py` line 172
force `Signal[0] = 1` (a first-day buy), so on those pages date 0 emits Enter
and the day-one state comes from the signal stream, not from a policy. -/
theorem HamrLab.C3_forced_first_day_buy :
    Signal_forced (fun _ => (1 : ℚ)) (fun _ => (1 : ℚ)) 0 = 1 ∧
    Signal_forced (fun _ => (1 : ℚ)) (fun _ => (1 : ℚ)) 0 ≠ 0 := by decide

/-- C3 (amended): in the `Home.py` / `1_QQQLRS.py` / `2_0050LRS.py` variants
the signal on date 0 is always `0` and the day-one position equals the
initial-policy value; in the forced-signal variants
(`1_200SMA_basic.py`, `2_LRS_leveraged.py`) `Signal[0]` is forced to Enter,
so the day-one position is Invested through the signal stream itself. -/
theorem HamrLab.C3_first_day_policy (pb ma : ℕ → ℚ) (init : Int) :
    Signal pb ma 0 = 0 ∧
    Position (Signal pb ma) init 0 = init ∧
    Position (Signal_forced pb ma) init 0 = 1 := by
  refine ⟨rfl, ?_, ?_⟩ <;> simp [Position, Signal, Signal_forced, posStep]

/-- C4 (confirmed): for every signal stream, initial state and date `t+1`, a
position change forces the signal at that date to be Enter or Exit with the
matching direction, and a None signal leaves the position unchanged. The
position stream `Position sig init` is by construction a pure function of the
signal stream and the initial state. -/
theorem HamrLab.C4_position_consistency (sig : ℕ → Int) (init : Int) (t : ℕ) :
    (Position sig init (t + 1) ≠ Position sig init t →
      (sig (t + 1) = 1 ∧ Position sig init (t + 1) = 1) ∨
      (sig (t + 1) = -1 ∧ Position sig init (t + 1) = 0)) ∧
    (sig (t + 1) = 0 → Position sig init (t + 1) = Position sig init t) := by
  constructor
  · intro hne
    by_cases h1 : sig (t + 1) = 1
    · exact Or.inl ⟨h1, by simp [Position, posStep, h1]⟩
    · by_cases h2 : sig (t + 1) = -1
      · exact Or.inr ⟨h2, by simp [Position, posStep, h1, h2]⟩
      · exact absurd (by simp [Position, posStep, h1, h2]) hne
  · intro h0
    simp [Position, posStep, h0]

/-- C4 witness: with a lone buy signal at index 1 starting flat, the position
change at index 1 is matched by the Enter signal, and the None signal at
index 2 leaves the position unchanged. -/
theorem HamrLab.C4_position_consistency_witness :
    ((sigC4 1 = 1 ∧ Position sigC4 0 1 = 1) ∨
      (sigC4 1 = -1 ∧ Position sigC4 0 1 = 0)) ∧
    Position sigC4 0 2 = Position sigC4 0 1 :=
  ⟨(HamrLab.C4_position_consistency sigC4 0 0).1 (by decide),
   (HamrLab.C4_position_consistency sigC4 0 1).2 (by decide)⟩

namespace HamrLab

/-- Concrete base-price stream for the C1 counterexample: `2, 1, 3, 3, ...`.
Against the constant average `2` this produces, on the leveraged page, the
signal stream `1, -1, 1, ...` (forced buy, sell on the cross-down, buy on the
cross-up). -/
def pbC1 : ℕ → ℚ := fun i => if i = 0 then 2 else if i = 1 then 1 else 3

/-- Constant moving-average stream `2` for the C1 counterexample. -/
def maC1 : ℕ → ℚ := fun _ => 2

/-- Concrete leveraged-price stream for the C1 counterexample: `1, 1, 2, ...`,
so the day-2 traded return is `+100%`. -/
def plevC1 : ℕ → ℚ := fun i => if i ≤ 1 then 1 else 2

/-- Concrete position stream for the C1 witness: flat on day 0, invested
afterwards. -/
def posC1 : ℕ → Int := fun i => if i = 0 then 0 else 1

end HamrLab

/-- C1 (counterexample): on `pages/2_LRS_leveraged.py` the equity loop credits
the day's return whenever `Position[i] == 1` alone. In the run produced by
prices `pbC1`/`plevC1` and average `maC1`, day 2 re-enters (position moves
from Flat on day 1 to Invested on day 2), yet the equity grows by the full
day-2 return (`1` to `2`) instead of staying flat as the claim requires of a
day on which the position was only just entered. -/
theorem HamrLab.C1_entry_day_credited_on_leveraged_page :
    Position (Signal_forced pbC1 maC1) 1 2 = 1 ∧
    Position (Signal_forced pbC1 maC1) 1 1 = 0 ∧
    Equity_LRS_lev (Position (Signal_forced pbC1 maC1) 1) plevC1 1 = 1 ∧
    Equity_LRS_lev (Position (Signal_forced pbC1 maC1) 1) plevC1 2 = 2 := by
  norm_num [Position, Signal_forced, signalAt, posStep, pbC1, maC1, plevC1,
    Equity_LRS_lev]

/-- C1 (amended): in the `Home.py` / `1_QQQLRS.py` / `2_0050LRS.py` equity
loop, `E[0] = 1`, `E[t] = E[t-1]*(1+r[t])` whenever the position is Invested
on both `t` and `t-1` (with `r[t] = price_lev[t]/price_lev[t-1] - 1`), and
`E[t] = E[t-1]` in every other case, so a just-entered day contributes no
return there; the `2_LRS_leveraged.py` variant instead credits the return
whenever the position is Invested on day `t` alone. -/
theorem HamrLab.C1_equity_rule (pos : ℕ → Int) (plev : ℕ → ℚ) (t : ℕ) :
    Equity_LRS pos plev 0 = 1 ∧
    (pos (t + 1) = 1 ∧ pos t = 1 →
      Equity_LRS pos plev (t + 1) =
        Equity_LRS pos plev t * (1 + (plev (t + 1) / plev t - 1))) ∧
    (¬(pos (t + 1) = 1 ∧ pos t = 1) →
      Equity_LRS pos plev (t + 1) = Equity_LRS pos plev t) := by
  refine ⟨rfl, fun h => ?_, fun h => ?_⟩
  · simp only [Equity_LRS, if_pos h]
    ring
  · simp only [Equity_LRS, if_neg h]

/-- C1 witness: with position stream `posC1` (entered after day 0) and
leveraged prices `plevC1`, day 1 is a just-entered day and keeps equity at 1,
while day 2 (held throughout) compounds the day's return. -/
theorem HamrLab.C1_equity_rule_witness :
    Equity_LRS posC1 plevC1 1 = Equity_LRS posC1 plevC1 0 ∧
    Equity_LRS posC1 plevC1 2 =
      Equity_LRS posC1 plevC1 1 * (1 + (plevC1 2 / plevC1 1 - 1)) :=
  ⟨(HamrLab.C1_equity_rule posC1 plevC1 0).2.2 (by decide),
   (HamrLab.C1_equity_rule posC1 plevC1 1).2.1 (by decide)⟩

namespace HamrLab

/-- Tail worker of column-wise `pct_change`: each entry is the percentage
change from the previous price. -/
def pctChangeAux (prev : ℚ) : List ℚ → List ℚ
  | [] => []
  | y :: ys => (y / prev - 1) :: pctChangeAux y ys

/-- `pct_change().fillna(0)` on a whole price column: the first row's
undefined change becomes `0`. -/
def pct_change_fill0 : List ℚ → List ℚ
  | [] => []
  | x :: xs => 0 :: pctChangeAux x xs

/-- The `Return` column of `pages/1_200SMA_basic.py` as seen inside the
analysis window: the column is computed on the buffered (post-warm-up) frame
(line 174) and only afterwards is the frame sliced to the requested window
(line 188, `df.loc[start:end]`), so the in-window column is the `drop` of the
full column at the slice offset `k`. -/
def Return_basic_window (prices : List ℚ) (k : ℕ) : List ℚ :=
  (pct_change_fill0 prices).drop k

end HamrLab

/-- C10 (counterexample): on `pages/1_200SMA_basic.py` the return series is
computed before the window slice, so the first in-window date carries the
price move from the last pre-window day: with buffered prices `[1, 2, 4]` and
the window starting at offset 1, the first in-window return is
`2/1 - 1 = 1`, not `0`, and this series is fed unchanged to the
volatility/Sharpe/Sortino metrics of that page. -/
theorem HamrLab.C10_prewindow_return_leaks :
    Return_basic_window [1, 2, 4] 1 = [1, 1] ∧
    (Return_basic_window [1, 2, 4] 1).head? ≠ some 0 := by
  constructor
  · norm_num [Return_basic_window, pct_change_fill0, pctChangeAux]
  · norm_num [Return_basic_window, pct_change_fill0, pctChangeAux]

/-- C10 (amended): in the `Home.py` / `1_QQQLRS.py` / `2_0050LRS.py` variants
the return columns are computed after the window restriction, so the return
at the window's first date is exactly `0` for traded, signal and strategy
series, all three equity curves equal `1` there, and the pre-window price
move cannot contribute (those curves are functions of in-window prices only);
in `pages/1_200SMA_basic.py` the return column is computed before the slice,
so the first in-window return equals the move in from the last pre-window day
and enters that page's volatility/Sharpe/Sortino metrics (its equity curves
are renormalized to `1` at the window's first date and are unaffected). -/
theorem HamrLab.C10_first_day_returns (pb plev : ℕ → ℚ) (pos : ℕ → Int) :
    pct_ret pb 0 = 0 ∧
    pct_ret plev 0 = 0 ∧
    pct_ret (Equity_LRS pos plev) 0 = 0 ∧
    Equity_BH pb 0 = 1 ∧
    Equity_BH plev 0 = 1 ∧
    Equity_LRS pos plev 0 = 1 := by
  refine ⟨rfl, rfl, rfl, ?_, ?_, rfl⟩ <;> norm_num [Equity_BH, pct_ret]

namespace HamrLab

/-- Tail worker of the running maximum: carries the maximum seen so far. -/
def cummaxAux (m : ℚ) : List ℚ → List ℚ
  | [] => []
  | x :: xs => max m x :: cummaxAux (max m x) xs

/-- `Series.cummax()`: the running maximum of an equity column. -/
def cummax : List ℚ → List ℚ
  | [] => []
  | x :: xs => x :: cummaxAux x xs

/-- pandas `Series.min()`; the sources apply it only to nonempty columns, so
the `[]` value is irrelevant to every claim. -/
def seriesMin : List ℚ → ℚ
  | [] => 0
  | x :: xs => xs.foldl min x

/-- pandas-style maximum of a column, for the spec-side formulation. -/
def seriesMax : List ℚ → ℚ
  | [] => 0
  | x :: xs => xs.foldl max x

/-- `mdd = 1 - (eq / eq.cummax()).min()` (`Home.py` line 306; identically
`pages/1_200SMA_basic.py` lines 206-207 and `pages/2_LRS_leveraged.py`
line 341). -/
def mdd (eq : List ℚ) : ℚ :=
  1 - seriesMin (List.zipWith (fun a b => a / b) eq (cummax eq))

/-- The spec's formulation of max drawdown (spec §4.5):
`max over t of (1 - E[t] / max(E[0..t]))`. -/
def mdd_spec (eq : List ℚ) : ℚ :=
  seriesMax
    ((List.zipWith (fun a b => a / b) eq (cummax eq)).map (fun r => 1 - r))

/-- Duality between a running minimum and the running maximum of the
complements: `1 - min` over a fold equals the fold of `max` over `1 - ·`. -/
theorem foldl_min_max_dual (xs : List ℚ) : ∀ a : ℚ,
    1 - xs.foldl min a = (xs.map (fun r => 1 - r)).foldl max (1 - a) := by
  induction xs with
  | nil => intro a; rfl
  | cons x xs ih =>
      intro a
      simp only [List.foldl_cons, List.map_cons]
      rw [ih (min a x)]
      have hminmax : 1 - min a x = max (1 - a) (1 - x) := by
        rcases le_total a x with h | h
        · rw [min_eq_left h, max_eq_left (by linarith)]
        · rw [min_eq_right h, max_eq_right (by linarith)]
      rw [hminmax]

end HamrLab

/-- C5 (confirmed): for every nonempty equity curve, the program's max
drawdown `1 - (eq / eq.cummax()).min()` equals the spec's
`max over t of (1 - E[t] / max(E[0..t]))`. -/
theorem HamrLab.C5_mdd_equiv (eq : List ℚ) (h : eq ≠ []) :
    mdd eq = mdd_spec eq := by
  cases eq with
  | nil => exact absurd rfl h
  | cons x xs =>
      simp only [mdd, mdd_spec, cummax, List.zipWith_cons_cons, seriesMin,
        seriesMax, List.map_cons]
      exact foldl_min_max_dual _ _

/-- C5 witness: both formulations evaluate to `1/2` on the concrete curve
`[1, 2, 1]` (peak 2, trough 1). -/
theorem HamrLab.C5_mdd_equiv_witness :
    ([1, 2, 1] : List ℚ) ≠ [] ∧
    mdd [1, 2, 1] = mdd_spec [1, 2, 1] ∧
    mdd [1, 2, 1] = 1 / 2 := by
  refine ⟨List.cons_ne_nil _ _, HamrLab.C5_mdd_equiv _ (List.cons_ne_nil _ _), ?_⟩
  norm_num [mdd, cummax, cummaxAux, seriesMin, List.zipWith_cons_cons]

namespace HamrLab

/-- `daily.mean()` over a return column. -/
def seriesMean (l : List ℚ) : ℚ := l.sum / l.length

/-- The sample variance underlying pandas `Series.std()` (ddof = 1). -/
def sampleVar (l : List ℚ) : ℚ :=
  (l.map (fun x => (x - seriesMean l) ^ 2)).sum / ((l.length : ℚ) - 1)

/-- pandas `Series.std()` (ddof = 1) carried as its square: the float std is
`√(sampleVar l)`, and is NaN (`none` here) when fewer than two observations
exist. The sources only compare std against `0` or propagate its NaN, and
`√v > 0 ↔ v > 0` for nonnegative `v`, so carrying the variance is a faithful
embedding of every use; Python's `NaN > 0` is `False`, matching the `none`
branch of `stdPos`. -/
def stdSq (l : List ℚ) : Option ℚ :=
  if l.length ≤ 1 then none else some (sampleVar l)

/-- The source guard `std > 0` applied to a possibly-NaN std. -/
def stdPos : Option ℚ → Bool
  | some v => decide (0 < v)
  | none => false

/-- `calc_metrics` (`Home.py` lines 124-134; the same function appears in
every page variant): returns `(vol, sharpe, sortino)`. NaN is `none`. The
`dropna()` is the identity here because the embedded return columns carry no
NaN (they were built with `fillna(0)`). The `some` payloads carry the
rational data determining the float values (`mean/√var·√252` for
Sharpe/Sortino, `√var·√252` for vol); only definedness is at stake in the
claims, the square roots being irrational. -/
def calc_metrics (series : List ℚ) :
    Option ℚ × Option (ℚ × ℚ) × Option (ℚ × ℚ) :=
  let daily := series
  if daily.length ≤ 1 then (none, none, none)
  else
    let avg := seriesMean daily
    let std := stdSq daily
    let downside := stdSq (daily.filter (fun x => x < 0))
    let vol := std
    let sharpe := if stdPos std then some (avg, sampleVar daily) else none
    let sortino :=
      if stdPos downside then
        some (avg, sampleVar (daily.filter (fun x => x < 0)))
      else none
    (vol, sharpe, sortino)

/-- The record built by `calc_core` (`Home.py` lines 302-309). Payloads as in
`calc_metrics`; the `cagr` payload `(final_ret, years)` determines the float
value `(1+final_ret)^(1/years) - 1`, and the `calmar` payload pairs the cagr
payload with the drawdown (float value `cagr/mdd`). -/
structure CoreSummary where
  final_eq : ℚ
  final_ret : ℚ
  cagr : Option (ℚ × ℚ)
  mddVal : ℚ
  vol : Option ℚ
  sharpe : Option (ℚ × ℚ)
  sortino : Option (ℚ × ℚ)
  calmar : Option ((ℚ × ℚ) × ℚ)

/-- `calc_core` (`Home.py` lines 302-309): `eq.iloc[-1]` is the last element
(every run applies it to a nonempty curve; `getLastD 0` is never the default
in those runs); `cagr` is NaN unless `years_len > 0`; `calmar` is
`cagr / mdd` when `mdd > 0` — which is NaN when `cagr` is NaN — and NaN
otherwise. -/
def calc_core (eq rets : List ℚ) (years_len : ℚ) : CoreSummary :=
  let final_eq := eq.getLastD 0
  let final_ret := final_eq - 1
  let cagr := if 0 < years_len then some (final_ret, years_len) else none
  let m := mdd eq
  let vs := calc_metrics rets
  let calmar := if 0 < m then cagr.map (fun c => (c, m)) else none
  ⟨final_eq, final_ret, cagr, m, vs.1, vs.2.1, vs.2.2, calmar⟩

end HamrLab

/-- C6 (confirmed): the metric pipeline is total — every degenerate input
yields the NaN sentinel inside the summary instead of an exception: Sharpe is
NaN when the daily-return std is 0, Sortino is NaN when there are no negative
daily returns or their std is 0, CAGR is NaN when elapsed years are `≤ 0`,
and Calmar is NaN when the max drawdown is 0. -/
theorem HamrLab.C6_metrics_degrade (eq rets : List ℚ) (years_len : ℚ) :
    (stdSq rets = some 0 → (calc_core eq rets years_len).sharpe = none) ∧
    (rets.filter (fun x => x < 0) = [] ∨
        stdSq (rets.filter (fun x => x < 0)) = some 0 →
      (calc_core eq rets years_len).sortino = none) ∧
    (years_len ≤ 0 → (calc_core eq rets years_len).cagr = none) ∧
    (mdd eq = 0 → (calc_core eq rets years_len).calmar = none) := by
  refine ⟨?_, ?_, ?_, ?_⟩
  · intro h
    by_cases hlen : rets.length ≤ 1
    · simp [calc_core, calc_metrics, hlen]
    · have hv : sampleVar rets = 0 := by
        rw [stdSq, if_neg hlen] at h
        exact Option.some_inj.mp h
      simp [calc_core, calc_metrics, hlen, stdPos, stdSq, hv]
  · intro h
    by_cases hlen : rets.length ≤ 1
    · simp [calc_core, calc_metrics, hlen]
    · rcases h with h | h
      · simp [calc_core, calc_metrics, hlen, stdPos, stdSq, h]
      · have hlen2 : ¬(rets.filter (fun x => x < 0)).length ≤ 1 := by
          intro hc
          rw [stdSq, if_pos hc] at h
          exact Option.noConfusion h
        have hv : sampleVar (rets.filter (fun x => x < 0)) = 0 := by
          rw [stdSq, if_neg hlen2] at h
          exact Option.some_inj.mp h
        simp [calc_core, calc_metrics, hlen, stdPos, stdSq, hlen2, hv]
  · intro h
    simp [calc_core, not_lt.mpr h]
  · intro h
    simp [calc_core, h]

/-- C6 witness: on the flat one-point curve `[1]` with constant returns
`[1, 1]` and zero elapsed years, all four metrics are the NaN sentinel. -/
theorem HamrLab.C6_metrics_degrade_witness :
    (calc_core [1] [1, 1] 0).sharpe = none ∧
    (calc_core [1] [1, 1] 0).sortino = none ∧
    (calc_core [1] [1, 1] 0).cagr = none ∧
    (calc_core [1] [1, 1] 0).calmar = none :=
  ⟨(HamrLab.C6_metrics_degrade [1] [1, 1] 0).1
      (by norm_num [stdSq, sampleVar, seriesMean]),
   (HamrLab.C6_metrics_degrade [1] [1, 1] 0).2.1
      (Or.inl (by norm_num [List.filter])),
   (HamrLab.C6_metrics_degrade [1] [1, 1] 0).2.2.1 (by norm_num),
   (HamrLab.C6_metrics_degrade [1] [1, 1] 0).2.2.2
      (by norm_num [mdd, cummax, cummaxAux, seriesMin, List.zipWith_cons_cons])⟩

namespace HamrLab

/-- The typed error outcomes of a page run: `invalidRange` is the
`start >= end` abort, `noData` the empty-CSV / empty-frame abort, and
`insufficientHistory` the not-enough-rows / empty-analysis-window abort. -/
inductive BtError where
  | invalidRange
  | noData
  | insufficientHistory
deriving DecidableEq, Repr

/-- An aligned row of the inner-joined frame: (date, base price, leveraged
price); dates are day numbers. -/
abbrev Row := ℕ × ℚ × ℚ

/-- A single-instrument row: (date, price). -/
abbrev PriceRow := ℕ × ℚ

/-- The run-level skeleton of `Home.py`'s button handler (lines 216-242):
empty-data check (line 224), slice of the raw frames to
`[start - 365 days, end]` (lines 218, 228-229; the inner join commutes with
the slice, so the model slices the joined rows), 200-day rolling mean plus
`dropna` — which keeps exactly the rows with a full window of `w`
observations, i.e. drops the first `w - 1` rows (lines 236-237) —
restriction to `[start, end]` (line 239), and the emptiness abort
(lines 240-242). The source fixes `w = WINDOW = 200`; the skeleton is
parametric in `w`, every guard being independent of the constant. There is
no `start >= end` guard anywhere in this handler. -/
def run_Home (rows : List Row) (w : ℕ) (start endD : ℕ) :
    Except BtError (List Row) :=
  if rows = [] then .error .noData
  else
    let buffered := rows.filter (fun r => start - 365 ≤ r.1 ∧ r.1 ≤ endD)
    let withMA := buffered.drop (w - 1)
    let window := withMA.filter (fun r => start ≤ r.1 ∧ r.1 ≤ endD)
    if window = [] then .error .insufficientHistory
    else .ok window

/-- The run-level skeleton of `pages/1_200SMA_basic.py` (lines 114-146):
`start >= end` guard (line 115), slice to `[start - 365 days, end]`
(lines 119-122), empty-frame abort (line 124), the
`len(df) < window` history check (lines 134-136) — a check on the TOTAL
number of buffered rows, not on the rows before `start` — the rolling mean
plus `dropna` (lines 139-143, SMA branch), and the post-`dropna` emptiness
abort (lines 144-146). The returned frame is the post-warm-up frame the page
then computes signals and equity on; the `[start, end]` slice happens later
(line 188), after the equity loop. -/
def run_200SMA (rows : List PriceRow) (w : ℕ) (start endD : ℕ) :
    Except BtError (List PriceRow) :=
  if start ≥ endD then .error .invalidRange
  else
    let buffered := rows.filter (fun r => start - 365 ≤ r.1 ∧ r.1 ≤ endD)
    if buffered = [] then .error .noData
    else if buffered.length < w then .error .insufficientHistory
    else
      let withMA := buffered.drop (w - 1)
      if withMA = [] then .error .insufficientHistory
      else .ok withMA

/-- 250 aligned joined rows dated `0..249`, constant prices, for the C7
counterexample. -/
def rowsC7 : List Row := (List.range 250).map (fun i => (i, 1, 1))

/-- The same 250 rows as a single-price frame. -/
def rowsC7b : List PriceRow := (List.range 250).map (fun i => (i, 1))

/-- 201 aligned joined rows dated `0..200`, constant prices, for the C8
counterexample. -/
def rowsC8 : List Row := (List.range 201).map (fun i => (i, 1, 1))

end HamrLab

set_option maxRecDepth 8000 in
/-- C7 (counterexample): with `w = 200`, 250 aligned rows dated `0..249` and
a requested range `[100, 300]`, only 100 aligned rows precede the requested
start — fewer than the window length — yet neither the `Home.py` handler nor
the `1_200SMA_basic.py` handler aborts: both proceed (the history checks
count the whole buffered range, not the rows before `start`; the effective
analysis window simply starts later than requested). -/
theorem HamrLab.C7_no_abort_below_w_rows_before_start :
    (rowsC7.filter (fun r => r.1 < 100)).length < 200 ∧
    (run_Home rowsC7 200 100 300).isOk = true ∧
    (run_200SMA rowsC7b 200 100 300).isOk = true := by decide

/-- C7 (amended): the `InsufficientHistory` abort of
`pages/1_200SMA_basic.py` fires exactly on the total buffered row count:
whenever the buffered `[start - 365, end]` frame is nonempty but holds fewer
than `w` aligned rows in total, the run aborts with `insufficientHistory`
(so the spec scenario — `window_length = 200` against 150 aligned rows of
total history — aborts rather than computing a truncated average); and in the
`Home.py` handler every row of a successfully produced analysis window comes
from the buffered frame with its first `w - 1` rows dropped, i.e. carries a
full-window, never-truncated moving average. -/
theorem HamrLab.C7_insufficient_history (rows : List HamrLab.PriceRow)
    (rows2 : List HamrLab.Row) (w start endD : ℕ)
    (win : List HamrLab.Row)
    (hr : ¬ start ≥ endD)
    (hne : rows.filter (fun r => start - 365 ≤ r.1 ∧ r.1 ≤ endD) ≠ [])
    (hlt : (rows.filter (fun r => start - 365 ≤ r.1 ∧ r.1 ≤ endD)).length < w)
    (hok : run_Home rows2 w start endD = .ok win) :
    run_200SMA rows w start endD = .error .insufficientHistory ∧
    win.Sublist
      ((rows2.filter (fun r => start - 365 ≤ r.1 ∧ r.1 ≤ endD)).drop (w - 1)) := by
  constructor
  · simp only [run_200SMA, if_neg hr, if_neg hne, if_pos hlt]
  · simp only [run_Home] at hok
    by_cases h0 : rows2 = []
    · rw [if_pos h0] at hok
      exact absurd hok (by simp)
    · rw [if_neg h0] at hok
      by_cases hw : ((rows2.filter
          (fun r => start - 365 ≤ r.1 ∧ r.1 ≤ endD)).drop (w - 1)).filter
            (fun r => start ≤ r.1 ∧ r.1 ≤ endD) = []
      · rw [if_pos hw] at hok
        exact absurd hok (by simp)
      · rw [if_neg hw] at hok
        have : win = ((rows2.filter
            (fun r => start - 365 ≤ r.1 ∧ r.1 ≤ endD)).drop (w - 1)).filter
              (fun r => start ≤ r.1 ∧ r.1 ≤ endD) :=
          (Except.ok.injEq _ _ ▸ congrArg id hok) ▸ rfl
        rw [this]
        exact List.filter_sublist _

deriving instance DecidableEq for Except

/-- C8 (counterexample): `Home.py`'s handler has no `start >= end` guard.
With `w = 200` (the source's fixed `WINDOW`), 201 aligned rows dated `0..200`
and the degenerate request `start = end = 200`, the run proceeds and produces
a one-row analysis window instead of aborting with `InvalidRange`. -/
theorem HamrLab.C8_home_computes_on_degenerate_range :
    (200 : ℕ) ≥ 200 ∧
    run_Home rowsC8 200 200 200 = .ok [(200, 1, 1)] := by decide

/-- C8 (amended): the `start >= end` guard exists in
`pages/1_200SMA_basic.py` (line 115, modelled here) and in
`pages/2_LRS_leveraged.py` (line 133, the same first check): those runs abort
with `InvalidRange` before any slicing, signal, position or equity work; the
`Home.py` handler performs no such check and will compute on a degenerate
range. -/
theorem HamrLab.C8_invalid_range_guard (rows : List HamrLab.PriceRow)
    (w start endD : ℕ) (h : start ≥ endD) :
    run_200SMA rows w start endD = .error .invalidRange := by
  simp only [run_200SMA, if_pos h]

/-- C8 witness: a concrete degenerate request `start = end = 5` aborts with
`InvalidRange` on the guarded page. -/
theorem HamrLab.C8_invalid_range_guard_witness :
    run_200SMA [(0, 1), (5, 2)] 1 5 5 = .error .invalidRange :=
  HamrLab.C8_invalid_range_guard [(0, 1), (5, 2)] 1 5 5 (by decide)

namespace HamrLab

/-- Modelled from the spec: the momentum-ranking routine of §4.6
("MomentumRanker") is absent from the sources under `src/`; these definitions
follow the spec's words. The latest available (date, price) at or before
`ref` in a date-ascending series. -/
def latest_at_or_before (s : List PriceRow) (ref : ℕ) : Option PriceRow :=
  (s.filter (fun p => p.1 ≤ ref)).getLast?

/-- Modelled from the spec (§4.6): one instrument's momentum entry — the
trailing return `p_end/p_start - 1` — or `none` when the end-side lookup is
missing or more than `tol` calendar days older than `endRef`, or when the
start-side lookup is missing entirely (the start side has no staleness
check). -/
def momentumEntry (tol endRef startRef : ℕ) (s : List PriceRow) : Option ℚ :=
  match latest_at_or_before s endRef, latest_at_or_before s startRef with
  | some pe, some ps =>
      if endRef - pe.1 > tol then none else some (pe.2 / ps.2 - 1)
  | _, _ => none

/-- Descending-by-trailing-return ranking order on (instrument id, return)
pairs. -/
def rankGE (a b : ℕ × ℚ) : Prop := b.2 ≤ a.2

instance : DecidableRel rankGE :=
  fun a b => inferInstanceAs (Decidable (b.2 ≤ a.2))

instance : IsTotal (ℕ × ℚ) rankGE := ⟨fun a b => le_total b.2 a.2⟩

instance : IsTrans (ℕ × ℚ) rankGE := ⟨fun _ _ _ hab hbc => le_trans hbc hab⟩

/-- Modelled from the spec (§4.6): best-effort ranking over the instrument
universe — instruments whose lookups fail are silently dropped
(`filterMap`), the survivors sorted descending by trailing return. -/
def rank_momentum (univ : List (ℕ × List PriceRow))
    (endRef startRef tol : ℕ) : List (ℕ × ℚ) :=
  List.insertionSort rankGE
    (univ.filterMap
      (fun u =>
        (momentumEntry tol endRef startRef u.2).map (fun r => (u.1, r))))

/-- A stale end-side lookup makes the instrument's entry fail. -/
theorem momentumEntry_eq_none_of_stale (tol endRef startRef : ℕ)
    (s : List PriceRow) (d : ℕ) (p : ℚ)
    (hl : latest_at_or_before s endRef = some (d, p))
    (hs : endRef - d > tol) :
    momentumEntry tol endRef startRef s = none := by
  unfold momentumEntry
  rw [hl]
  cases latest_at_or_before s startRef with
  | none => rfl
  | some ps => simp [hs]

end HamrLab

/-- C9 (confirmed, spec-modelled): an instrument whose latest price at or
before the end reference date is more than the staleness tolerance older
than that date never appears in the ranked output, and the output is ranked
descending by trailing return. -/
theorem HamrLab.C9_stale_instrument_excluded
    (univ : List (ℕ × List HamrLab.PriceRow))
    (endRef startRef tol : ℕ) (sym : ℕ) (series : List HamrLab.PriceRow)
    (d : ℕ) (p : ℚ)
    (huniq : ∀ s, (sym, s) ∈ univ → s = series)
    (hlatest : latest_at_or_before series endRef = some (d, p))
    (hstale : endRef - d > tol) :
    sym ∉ (rank_momentum univ endRef startRef tol).map Prod.fst ∧
    (rank_momentum univ endRef startRef tol).Sorted rankGE := by
  constructor
  · intro hmem
    rw [List.mem_map] at hmem
    obtain ⟨pair, hpair, hfst⟩ := hmem
    rw [rank_momentum, List.mem_insertionSort, List.mem_filterMap] at hpair
    obtain ⟨u, hu, hmap⟩ := hpair
    rw [Option.map_eq_some'] at hmap
    obtain ⟨r, hent, hpr⟩ := hmap
    have hsym : u.1 = sym := by rw [← hfst, ← hpr]
    have hpairu : (sym, u.2) = u := by rw [← hsym]
    have hser : u.2 = series := huniq u.2 (hpairu ▸ hu)
    rw [hser,
      momentumEntry_eq_none_of_stale tol endRef startRef series d p hlatest
        hstale] at hent
    exact Option.noConfusion hent
  · exact List.sorted_insertionSort rankGE _

/-- C9 witness: instrument 1's latest price at/before day 100 is 50 days old
(tolerance 15), so it is excluded from the concrete two-instrument ranking,
which stays sorted. -/
theorem HamrLab.C9_stale_instrument_excluded_witness :
    (1 : ℕ) ∉
      (rank_momentum [(1, [(0, 1), (50, 2)]), (2, [(0, 1), (100, 4)])]
        100 0 15).map Prod.fst ∧
    (rank_momentum [(1, [(0, 1), (50, 2)]), (2, [(0, 1), (100, 4)])]
      100 0 15).Sorted rankGE :=
  HamrLab.C9_stale_instrument_excluded
    [(1, [(0, 1), (50, 2)]), (2, [(0, 1), (100, 4)])] 100 0 15 1
    [(0, 1), (50, 2)] 50 2
    (by
      intro s hs
      simp only [List.mem_cons, List.not_mem_nil, or_false] at hs
      rcases hs with h | h
      · exact (Prod.ext_iff.mp h).2
      · simp at h)
    (by decide) (by decide)

namespace HamrLab

/-- The spec scenario frame for the C7 witness: 150 aligned rows of total
history, dated `0..149`. -/
def rows150 : List PriceRow := (List.range 150).map (fun i => (i, 1))

end HamrLab

set_option maxRecDepth 8000 in
/-- C7 witness: a `window_length = 200` request over the 150-row frame aborts
with `insufficientHistory`, and a successful `Home.py` window (here over the
201-row frame) is a sublist of the buffered frame with its first 199 rows
dropped, i.e. every analysis row has a full 200-observation average. -/
theorem HamrLab.C7_insufficient_history_witness :
    run_200SMA rows150 200 100 200 = .error .insufficientHistory ∧
    ([(199, 1, 1), (200, 1, 1)] : List HamrLab.Row).Sublist
      ((rowsC8.filter (fun r => 100 - 365 ≤ r.1 ∧ r.1 ≤ 200)).drop 199) :=
  HamrLab.C7_insufficient_history rows150 rowsC8 200 100 200
    [(199, 1, 1), (200, 1, 1)] (by decide) (by decide) (by decide) (by decide)
